import Mathlib

/-!
Verification of the client-side prediction / reconciliation / interpolation
core of the Vibe-Wizard multiplayer game client.

The definitions below are shallow embeddings of the TypeScript source:
  - `client/src/components/Player.tsx` : `calculateClientMovement`,
    `determineLocalAnimation`, the reconciliation block and the remote
    interpolation block of `useFrame`, and the remote snapshot buffer push.
  - `client/src/App.tsx` : the pending (sequence -> send timestamp) table
    maintained in `sendInput` and in the `player.onUpdate` callback.

Scalar choices: components that only add, subtract, multiply, divide and
compare numbers (the remote snapshot buffer, the interpolation buffer scan
and the pending-timestamp table) are embedded over the rationals so that
all of them compute; the predictor and the reconciler use `Real.sin`,
`Real.cos` and `Real.sqrt`, so they are embedded over the reals.
-/

namespace VibeWizard

/-! ## Rational 3-vectors (remote interpolation side)

`THREE.Vector3` restricted to the operations the buffered-interpolation
code path uses. -/

structure Vec3Q where
  x : ℚ
  y : ℚ
  z : ℚ
deriving DecidableEq, Repr

/-- `v1.distanceToSquared(v2)` of three.js.  The source compares
`distanceTo(p) > 0.001`; since both sides are nonnegative this is
equivalent to `distanceToSquared(p) > 0.001^2`, which is the form we embed
to stay inside the rationals. -/
def distSqQ (a b : Vec3Q) : ℚ :=
  (a.x - b.x) ^ 2 + (a.y - b.y) ^ 2 + (a.z - b.z) ^ 2

/-- `lerpVectors(a, b, t)` of three.js: componentwise `a + (b - a) * t`. -/
def lerpQ (a b : Vec3Q) (t : ℚ) : Vec3Q :=
  ⟨a.x + (b.x - a.x) * t, a.y + (b.y - a.y) * t, a.z + (b.z - a.z) * t⟩

/-- `Math.min(1, Math.max(0, t))` as applied to the interpolation factor. -/
def clamp01 (t : ℚ) : ℚ := min 1 (max 0 t)

/-! ## Remote snapshot buffer (`remotePositionBuffer` in Player.tsx)

Entries pair a position with the client's local arrival timestamp. -/

structure RemoteSnap where
  pos : Vec3Q
  timestamp : ℚ
deriving DecidableEq, Repr

/-- One arrival of a server position for a remote entity
(Player.tsx, remote branch of `useFrame`):

    if (buffer.length === 0 ||
        serverPosition.distanceTo(buffer[buffer.length - 1].pos) > 0.001) {
      buffer.push({ pos, timestamp: now });
      if (buffer.length > 10) buffer.shift();
    }
-/
def pushRemoteSnapshot (buf : List RemoteSnap) (p : Vec3Q) (t : ℚ) : List RemoteSnap :=
  let accept : Bool :=
    match buf.getLast? with
    | none => true
    | some lastS => decide ((1 / 1000000 : ℚ) < distSqQ p lastS.pos)
  if accept then
    let b := buf ++ [⟨p, t⟩]
    if 10 < b.length then b.drop 1 else b
  else buf

/-- Feeding a sequence of arrivals (in arrival order) into an initially
empty buffer. -/
def runArrivals (l : List RemoteSnap) : List RemoteSnap :=
  List.foldl (fun b s => pushRemoteSnapshot b s.pos s.timestamp) [] l

/-! ## Delayed interpolation (remote branch of `useFrame` in Player.tsx)

The `while` loop

    let i = 0;
    while (i < buffer.length - 1 && buffer[i + 1].timestamp <= renderTime) i++;

followed by the `if (i < buffer.length - 1)` interpolation / clamp split
is embedded as structural recursion over the buffer list. -/

def interpolateBuffer : List RemoteSnap → ℚ → Option Vec3Q
  | [], _ => none
  | [s], _ => some s.pos
  | s0 :: s1 :: rest, rt =>
    if s1.timestamp ≤ rt then
      interpolateBuffer (s1 :: rest) rt
    else
      some (lerpQ s0.pos s1.pos (clamp01 ((rt - s0.timestamp) / (s1.timestamp - s0.timestamp))))

/-- The rendered target position for a remote entity: interpolate the
buffer at `renderTime = now - 100`; with an empty buffer the raw server
position is used directly. -/
def remoteRenderPosition (buf : List RemoteSnap) (now : ℚ) (serverPosition : Vec3Q) : Vec3Q :=
  (interpolateBuffer buf (now - 100)).getD serverPosition

/-! ## Pending (sequence -> send timestamp) table (App.tsx)

`inputTimestampsRef.current` is a JS `Map<number, number>`; we model it as
an association list in insertion order (JS `Map` iteration order). -/

abbrev TsMap := List (ℕ × ℚ)

/-- `Map.get`. -/
def msLookup : TsMap → ℕ → Option ℚ
  | [], _ => none
  | (k', v) :: t, k => if k = k' then some v else msLookup t k

/-- `Map.set`: overwrite in place if the key exists, else append
(JS `Map` keeps insertion order). -/
def msSet : TsMap → ℕ → ℚ → TsMap
  | [], k, v => [(k, v)]
  | (k', v') :: t, k, v => if k = k' then (k', v) :: t else (k', v') :: msSet t k v

/-- `Map.delete` (a JS `Map` holds each key at most once). -/
def msDelete : TsMap → ℕ → TsMap
  | [], _ => []
  | (k', v') :: t, k => if k = k' then t else (k', v') :: msDelete t k

/-- `sendInput` (App.tsx line 345): on every sent command,
`inputTimestampsRef.current.set(sequence, performance.now())`. -/
def sendRecord (m : TsMap) (seq : ℕ) (now : ℚ) : TsMap :=
  msSet m seq now

/-- The RTT/cleanup part of the `player.onUpdate` callback
(App.tsx lines 132-159):

    if (newPlayer.lastInputSeq) {
      const sentTime = map.get(seq);
      if (sentTime) {
        ...
        map.delete(seq);
        if (map.size > 100) map.delete(seq - 100);
      }
    }
-/
def ackProcess (m : TsMap) (seq : ℕ) : TsMap :=
  if seq = 0 then m
  else
    match msLookup m seq with
    | none => m
    | some _ =>
      let m1 := msDelete m seq
      if 100 < m1.length then msDelete m1 (seq - 100) else m1

/-- A run of `n` consecutive sends (sequences `1..n`) with no matching
acknowledgment ever processed (total packet loss of the echoes).
The timestamp recorded for sequence `k` is just `k`. -/
def sendOnlyTrace (n : ℕ) : TsMap :=
  List.foldl (fun m k => sendRecord m k (k : ℚ)) [] (List.range' 1 n)

/-! ## Input state (App.tsx `currentInputRef`, movement/action flags only) -/

structure InputState where
  forward : Bool
  backward : Bool
  left : Bool
  right : Bool
  sprint : Bool
  jump : Bool
  attack : Bool
  castSpell : Bool
deriving DecidableEq, Repr

/-! ## Real 3-vectors (prediction / reconciliation side) -/

noncomputable section

@[ext]
structure Vector3 where
  x : ℝ
  y : ℝ
  z : ℝ

namespace Vector3

def add (a b : Vector3) : Vector3 := ⟨a.x + b.x, a.y + b.y, a.z + b.z⟩

def sub (a b : Vector3) : Vector3 := ⟨a.x - b.x, a.y - b.y, a.z - b.z⟩

/-- `multiplyScalar`. -/
def scale (s : ℝ) (a : Vector3) : Vector3 := ⟨s * a.x, s * a.y, s * a.z⟩

/-- `lengthSq()`. -/
def lengthSq (a : Vector3) : ℝ := a.x ^ 2 + a.y ^ 2 + a.z ^ 2

/-- `normalize()`: divide by `sqrt(lengthSq)`. -/
def normalize (a : Vector3) : Vector3 :=
  let len := Real.sqrt (lengthSq a)
  ⟨a.x / len, a.y / len, a.z / len⟩

/-- `a.distanceTo(b)` of three.js. -/
def distanceTo (a b : Vector3) : ℝ :=
  Real.sqrt ((a.x - b.x) ^ 2 + (a.y - b.y) ^ 2 + (a.z - b.z) ^ 2)

/-- `a.lerp(b, t)` / `lerpVectors`: componentwise `a + (b - a) * t`. -/
def lerp (a b : Vector3) (t : ℝ) : Vector3 :=
  ⟨a.x + (b.x - a.x) * t, a.y + (b.y - a.y) * t, a.z + (b.z - a.z) * t⟩

end Vector3

/-! ## Client-side constants (Player.tsx lines 59-70) -/

def PLAYER_SPEED : ℝ := 7.5

def SPRINT_MULTIPLIER : ℝ := 1.8

def GRAVITY : ℝ := -6

def JUMP_FORCE : ℝ := 9

def SERVER_TICK_DELTA : ℝ := 1 / 60

def POSITION_RECONCILE_THRESHOLD : ℝ := 0.2

/-! ## Planar movement (Player.tsx lines 201-221)

`applyAxisAngle((0,1,0), yaw)` rotates about the y-axis:
`(x, y, z) ↦ (x cos yaw + z sin yaw, y, -x sin yaw + z cos yaw)`, so
`(0,0,-1)` becomes `(-sin yaw, 0, -cos yaw)` and `(1,0,0)` becomes
`(cos yaw, 0, -sin yaw)`. -/

def planarMoveVector (playerYaw : ℝ) (inputState : InputState) (delta : ℝ) : Vector3 :=
  let speed := if inputState.sprint then PLAYER_SPEED * SPRINT_MULTIPLIER else PLAYER_SPEED
  let fwd : Vector3 := ⟨-Real.sin playerYaw, 0, -Real.cos playerYaw⟩
  let rgt : Vector3 := ⟨Real.cos playerYaw, 0, -Real.sin playerYaw⟩
  let v0 : Vector3 := ⟨0, 0, 0⟩
  let v1 := if inputState.forward then v0.add fwd else v0
  let v2 := if inputState.backward then v1.sub fwd else v1
  let v3 := if inputState.left then v2.sub rgt else v2
  let v4 := if inputState.right then v3.add rgt else v3
  let v5 := if 1.1 < v4.lengthSq then v4.normalize else v4
  Vector3.scale (speed * delta) v5

/-! ## The prediction step (`calculateClientMovement`, Player.tsx 193-247)

The source reads and writes the refs `verticalVelocity` and `prevJumpRef`
as a side channel; the embedding passes them in and returns them
explicitly.  The early return (lines 197-199) leaves both refs untouched. -/

def calculateClientMovement (currentPos : Vector3) (currentRotY : ℝ)
    (verticalVelocity : ℝ) (prevJump : Bool) (inputState : InputState)
    (delta : ℝ) : Vector3 × ℝ × Bool :=
  let hasInput := inputState.forward || inputState.backward || inputState.left || inputState.right
  if hasInput = false ∧ inputState.jump = false ∧ currentPos.y ≤ 0 then
    (currentPos, verticalVelocity, prevJump)
  else
    let worldMoveVector := planarMoveVector currentRotY inputState delta
    let vv1 := verticalVelocity + GRAVITY * delta
    let vv2 :=
      if inputState.jump = true ∧ prevJump = false ∧ currentPos.y ≤ 0.01 then JUMP_FORCE else vv1
    let moved := currentPos.add worldMoveVector
    let newY := moved.y + vv2 * delta
    if newY < 0 then ({ moved with y := 0 }, 0, inputState.jump)
    else ({ moved with y := newY }, vv2, inputState.jump)

/-- The local entity's predicted state: `localPositionRef` (position),
`localRotationRef.y` (yaw), and the two side-channel refs of the
predictor, `verticalVelocity` and `prevJumpRef`. -/
structure PredictedState where
  position : Vector3
  yaw : ℝ
  verticalVelocity : ℝ
  prevJump : Bool

/-- One prediction tick as invoked from `useFrame` (Player.tsx 965-974):
`calculateClientMovement` on the current predicted state.  Yaw is not
touched by the predictor (it is driven by the mouse handler). -/
def predictStep (st : PredictedState) (inp : InputState) (delta : ℝ) : PredictedState :=
  let r := calculateClientMovement st.position st.yaw st.verticalVelocity st.prevJump inp delta
  ⟨r.1, st.yaw, r.2.1, r.2.2⟩

/-- Whether a given prediction tick applies the upward jump impulse
(`verticalVelocity.current = JUMP_FORCE`, Player.tsx 229-231): the early
return must not fire, and the rising-edge condition
`inputState.jump && !prevJumpRef.current && currentPos.y <= 0.01` must
hold. -/
def jumpImpulseApplied (st : PredictedState) (inp : InputState) : Prop :=
  ¬((inp.forward || inp.backward || inp.left || inp.right) = false ∧
      inp.jump = false ∧ st.position.y ≤ 0) ∧
    inp.jump = true ∧ st.prevJump = false ∧ st.position.y ≤ 0.01

/-! ## Reconciliation (Player.tsx 1004-1019) -/

/-- The tiered correction applied to `localPositionRef` when comparing it
with the authoritative `serverPos`:

    if (distError > 1.0) localPositionRef.copy(serverPos)
    else if (distError > POSITION_RECONCILE_THRESHOLD)
      localPositionRef.lerp(serverPos, Math.min(0.3, 0.15 + distError * 0.3))
    else localPositionRef.lerp(serverPos, 0.05)
-/
def reconcilePosition (localPos serverPos : Vector3) : Vector3 :=
  let distError := localPos.distanceTo serverPos
  if 1 < distError then serverPos
  else if POSITION_RECONCILE_THRESHOLD < distError then
    localPos.lerp serverPos (min 0.3 (0.15 + distError * 0.3))
  else localPos.lerp serverPos 0.05

/-- The authoritative per-player data consumed by the local branch of
`useFrame`: `playerData.position` and `playerData.rotation.y`. -/
structure ServerPlayerState where
  position : Vector3
  rotationY : ℝ

/-- Processing one authoritative snapshot for the local entity: only
`localPositionRef` is written (Player.tsx 1004-1019); the refs
`verticalVelocity`, `prevJumpRef` and `localRotationRef` do not occur in
the reconciliation block. -/
def reconcileLocalState (st : PredictedState) (server : ServerPlayerState) : PredictedState :=
  { st with position := reconcilePosition st.position server.position }

end

/-! ## Direction label (`determineLocalAnimation`, Player.tsx 250-298) -/

/-- The direction tie-break chain shared verbatim by
`determineLocalAnimation` (Player.tsx 276-294) and `determineAnimation`
(App.tsx 267-287); `direction` starts as "forward". -/
def determineDirection (forward backward left right : Bool) : String :=
  if forward && !backward then "forward"
  else if backward && !forward then "back"
  else if left && !right then "left"
  else if right && !left then "right"
  else if forward && left then "left"
  else if forward && right then "right"
  else if backward && left then "left"
  else if backward && right then "right"
  else "forward"

/-- `determineLocalAnimation(input, isGrounded)` (Player.tsx 250-298). -/
def determineLocalAnimation (input : InputState) (isGrounded : Bool) : String :=
  if input.attack then "attack1"
  else if input.castSpell then "cast"
  else if !isGrounded then "jump"
  else if input.jump then "jump"
  else
    let isMoving := input.forward || input.backward || input.left || input.right
    if !isMoving then "idle"
    else
      (if input.sprint then "run" else "walk") ++ "-" ++
        determineDirection input.forward input.backward input.left input.right

/-! ## General lemmas shared by the claim theorems -/

/-- Strict timestamp ordering of buffered snapshots. -/
abbrev tsLT (a b : RemoteSnap) : Prop := a.timestamp < b.timestamp

/-- A newly arrived snapshot differs from the previous arrival by more
than the negligible threshold (`distanceTo > 0.001`, embedded squared). -/
abbrev arrivalGap (a b : RemoteSnap) : Prop := (1 / 1000000 : ℚ) < distSqQ b.pos a.pos

theorem distanceTo_x (a b : ℝ) :
    Vector3.distanceTo ⟨a, 0, 0⟩ ⟨b, 0, 0⟩ = |a - b| := by
  simp [Vector3.distanceTo]
  rw [Real.sqrt_sq_eq_abs]

theorem lerp_self (a : Vector3) (t : ℝ) : a.lerp a t = a := by
  simp [Vector3.lerp]

theorem distanceTo_zero_x (b : ℝ) (hb : 0 ≤ b) :
    Vector3.distanceTo ⟨0, 0, 0⟩ ⟨b, 0, 0⟩ = b := by
  rw [distanceTo_x, abs_sub_comm, sub_zero, abs_of_nonneg hb]

theorem distanceTo_eq_zero {a b : Vector3} (h : a.distanceTo b = 0) : a = b := by
  unfold Vector3.distanceTo at h
  have hsum : (a.x - b.x) ^ 2 + (a.y - b.y) ^ 2 + (a.z - b.z) ^ 2 = 0 := by
    have hnn : 0 ≤ (a.x - b.x) ^ 2 + (a.y - b.y) ^ 2 + (a.z - b.z) ^ 2 := by positivity
    nlinarith [Real.sq_sqrt hnn, h]
  have hx : a.x = b.x := by
    nlinarith [sq_nonneg (a.x - b.x), sq_nonneg (a.y - b.y), sq_nonneg (a.z - b.z)]
  have hy : a.y = b.y := by
    nlinarith [sq_nonneg (a.x - b.x), sq_nonneg (a.y - b.y), sq_nonneg (a.z - b.z)]
  have hz : a.z = b.z := by
    nlinarith [sq_nonneg (a.x - b.x), sq_nonneg (a.y - b.y), sq_nonneg (a.z - b.z)]
  ext <;> assumption

theorem planarMoveVector_y (yaw : ℝ) (inp : InputState) (delta : ℝ) :
    (planarMoveVector yaw inp delta).y = 0 := by
  unfold planarMoveVector
  dsimp only
  repeat' split
  all_goals
    simp [Vector3.add, Vector3.sub, Vector3.scale, Vector3.normalize, Vector3.lengthSq]

theorem predictStep_prevJump (st : PredictedState) (inp : InputState) (delta : ℝ)
    (hj : inp.jump = true) :
    (predictStep st inp delta).prevJump = true := by
  unfold predictStep calculateClientMovement
  rw [if_neg]
  · dsimp only
    split <;> split <;> simp [hj]
  · simp [hj]

theorem interp_past_last (l : List RemoteSnap) (s : RemoteSnap) (rt : ℚ)
    (hs : (l ++ [s]).Sorted tsLT) (h : s.timestamp ≤ rt) :
    interpolateBuffer (l ++ [s]) rt = some s.pos := by
  induction l with
  | nil => rfl
  | cons a l2 ih =>
    have htail : (l2 ++ [s]).Sorted tsLT := (List.pairwise_cons.mp hs).2
    cases l2 with
    | nil => simp [interpolateBuffer, h]
    | cons b t =>
      have hbs : tsLT b s := by
        have hh := (List.pairwise_cons.mp htail).1
        exact hh s (by simp)
      have hb : b.timestamp ≤ rt := le_trans (le_of_lt hbs) h
      show interpolateBuffer (a :: b :: (t ++ [s])) rt = some s.pos
      rw [interpolateBuffer]
      rw [if_pos hb]
      exact ih htail

theorem interp_bracket (pre : List RemoteSnap) (s0 s1 : RemoteSnap)
    (post : List RemoteSnap) (rt : ℚ)
    (hs : (pre ++ s0 :: s1 :: post).Sorted tsLT)
    (h0 : s0.timestamp ≤ rt) (h1 : rt < s1.timestamp) :
    interpolateBuffer (pre ++ s0 :: s1 :: post) rt =
      some (lerpQ s0.pos s1.pos
        (clamp01 ((rt - s0.timestamp) / (s1.timestamp - s0.timestamp)))) := by
  induction pre with
  | nil =>
    show interpolateBuffer (s0 :: s1 :: post) rt = _
    rw [interpolateBuffer]
    rw [if_neg (not_le.mpr h1)]
  | cons a pre2 ih =>
    have htail : (pre2 ++ s0 :: s1 :: post).Sorted tsLT := (List.pairwise_cons.mp hs).2
    cases hp : pre2 ++ s0 :: s1 :: post with
    | nil => exact absurd hp (by simp)
    | cons y ys =>
      have hy : y.timestamp ≤ rt := by
        cases pre2 with
        | nil =>
          have hys : y = s0 := by
            rw [List.nil_append] at hp
            exact (List.cons.inj hp).1.symm
          rw [hys]; exact h0
        | cons c pre3 =>
          have hc : y = c := by
            simp at hp
            exact hp.1.symm
          have hmem : s0 ∈ pre3 ++ s0 :: s1 :: post := by simp
          have hcs : tsLT c s0 := by
            rw [List.cons_append] at htail
            have hh := (List.pairwise_cons.mp htail).1
            exact hh s0 hmem
          rw [hc]
          exact le_trans (le_of_lt hcs) h0
      show interpolateBuffer (a :: (pre2 ++ s0 :: s1 :: post)) rt = _
      rw [hp, interpolateBuffer, if_pos hy, ← hp]
      exact ih htail

theorem pushRemoteSnapshot_length (buf : List RemoteSnap) (p : Vec3Q) (t : ℚ)
    (h : buf.length ≤ 10) : (pushRemoteSnapshot buf p t).length ≤ 10 := by
  unfold pushRemoteSnapshot
  dsimp only
  split
  · split <;>
      · rename_i hlen
        simp only [List.length_drop, List.length_append, List.length_cons,
          List.length_nil] at hlen ⊢
        omega
  · exact h

theorem runArrivals_chain (l : List RemoteSnap) (hc : l.Chain' arrivalGap) :
    runArrivals l = l.drop (l.length - 10) := by
  induction l using List.reverseRecOn with
  | nil => rfl
  | append_singleton l x ih =>
    obtain ⟨hcl, -, hlink⟩ := List.chain'_append.mp hc
    have h1 : runArrivals (l ++ [x])
        = pushRemoteSnapshot (runArrivals l) x.pos x.timestamp :=
      List.foldl_concat _ [] x l
    rw [h1, ih hcl]
    by_cases hl : l = []
    · subst hl
      simp [pushRemoteSnapshot]
    · have hne : l.length ≠ 0 := by simpa [List.length_eq_zero] using hl
      obtain ⟨lastS, hgl⟩ := Option.isSome_iff_exists.mp (List.getLast?_isSome.mpr hl)
      have hgap : (1 / 1000000 : ℚ) < distSqQ x.pos lastS.pos :=
        hlink lastS (Option.mem_def.mpr hgl) x (Option.mem_def.mpr rfl)
      have hdl : (l.drop (l.length - 10)).getLast? = some lastS := by
        rw [List.getLast?_drop, if_neg (by omega), hgl]
      unfold pushRemoteSnapshot
      rw [hdl]
      dsimp only
      rw [if_pos (decide_eq_true hgap)]
      have hxeta : ({ pos := x.pos, timestamp := x.timestamp } : RemoteSnap) = x := rfl
      rw [hxeta]
      by_cases hlen : l.length ≤ 9
      · have e0 : l.length - 10 = 0 := by omega
        have e1 : (l ++ [x]).length - 10 = 0 := by
          simp only [List.length_append, List.length_cons, List.length_nil]; omega
        rw [e0, List.drop_zero, e1, List.drop_zero]
        rw [if_neg (by simp only [List.length_append, List.length_cons,
          List.length_nil]; omega)]
      · push_neg at hlen
        rw [if_pos (by simp only [List.length_append, List.length_cons, List.length_drop,
          List.length_nil]; omega)]
        rw [List.drop_append_of_le_length (by simp only [List.length_drop]; omega)]
        rw [List.drop_drop]
        rw [List.drop_append_of_le_length (by simp only [List.length_append,
          List.length_cons, List.length_nil]; omega)]
        have e2 : l.length - 10 + 1 = (l ++ [x]).length - 10 := by
          simp only [List.length_append, List.length_cons, List.length_nil]; omega
        rw [e2]

theorem msLookup_msSet_self (m : TsMap) (k : ℕ) (v : ℚ) :
    msLookup (msSet m k v) k = some v := by
  induction m with
  | nil => simp [msSet, msLookup]
  | cons p t ih =>
    obtain ⟨k', v'⟩ := p
    by_cases hk : k = k'
    · simp [msSet, msLookup, hk]
    · simp [msSet, msLookup, hk, ih]

theorem msLookup_msDelete_ne (m : TsMap) (j k : ℕ) (h : k ≠ j) :
    msLookup (msDelete m j) k = msLookup m k := by
  induction m with
  | nil => rfl
  | cons p t ih =>
    obtain ⟨k', v'⟩ := p
    by_cases hj : j = k'
    · subst hj
      simp [msDelete, msLookup, h, ih]
    · by_cases hk : k = k'
      · simp [msDelete, msLookup, hj, hk]
      · simp [msDelete, msLookup, hj, hk, ih]

theorem msLookup_msDelete_self (m : TsMap) (k : ℕ)
    (hnd : (m.map Prod.fst).Nodup) :
    msLookup (msDelete m k) k = none := by
  induction m with
  | nil => rfl
  | cons p t ih =>
    obtain ⟨k', v'⟩ := p
    simp only [List.map_cons, List.nodup_cons] at hnd
    by_cases hk : k = k'
    · subst hk
      simp only [msDelete, if_pos rfl]
      clear ih
      induction t with
      | nil => rfl
      | cons q t2 ih2 =>
        obtain ⟨k2, v2⟩ := q
        simp only [List.map_cons, List.mem_cons, List.nodup_cons] at hnd
        have hk2 : k ≠ k2 := fun h => hnd.1 (Or.inl h)
        simp only [msLookup, if_neg hk2]
        refine ih2 ⟨?_, hnd.2.2⟩
        exact fun hm => hnd.1 (Or.inr hm)
    · simp only [msDelete, if_neg hk, msLookup]
      exact ih hnd.2

theorem msSet_fresh (m : TsMap) (k : ℕ) (v : ℚ) (h : msLookup m k = none) :
    msSet m k v = m ++ [(k, v)] := by
  induction m with
  | nil => rfl
  | cons p t ih =>
    obtain ⟨k', v'⟩ := p
    simp only [msLookup] at h
    by_cases hk : k = k'
    · rw [if_pos hk] at h; exact absurd h (by simp)
    · rw [if_neg hk] at h
      simp only [msSet, if_neg hk, List.cons_append, List.cons.injEq, true_and]
      exact ih h

theorem msLookup_not_mem (m : TsMap) (k : ℕ) (h : k ∉ m.map Prod.fst) :
    msLookup m k = none := by
  induction m with
  | nil => rfl
  | cons p t ih =>
    obtain ⟨k', v'⟩ := p
    simp only [List.map_cons, List.mem_cons, not_or] at h
    simp only [msLookup, if_neg h.1]
    exact ih h.2

theorem sendOnlyTrace_eq (n : ℕ) :
    sendOnlyTrace n = (List.range' 1 n).map (fun k => ((k : ℕ), (k : ℚ))) := by
  induction n with
  | zero => rfl
  | succ n ih =>
    unfold sendOnlyTrace at *
    rw [List.range'_1_concat, List.foldl_append]
    simp only [List.foldl_cons, List.foldl_nil]
    rw [ih]
    rw [List.map_append]
    show sendRecord _ (1 + n) ((1 + n : ℕ) : ℚ) = _
    unfold sendRecord
    rw [msSet_fresh]
    · simp
    · apply msLookup_not_mem
      simp only [List.map_map]
      intro hmem
      simp only [List.mem_map, List.mem_range'] at hmem
      obtain ⟨a, ⟨i, hi, rfl⟩, ha⟩ := hmem
      simp at ha
      omega

theorem sendOnlyTrace_length (n : ℕ) : (sendOnlyTrace n).length = n := by
  rw [sendOnlyTrace_eq, List.length_map, List.length_range']

theorem sendOnlyTrace_lookup_one (n : ℕ) (h : 1 ≤ n) :
    msLookup (sendOnlyTrace n) 1 = some 1 := by
  obtain ⟨m, rfl⟩ := Nat.exists_eq_add_of_le h
  rw [sendOnlyTrace_eq, Nat.add_comm 1 m, List.range'_succ]
  simp only [List.map_cons]
  rfl

theorem planarMoveVector_FR :
    planarMoveVector 0 ⟨true, false, false, true, false, false, false, false⟩ (1 / 60)
      = ⟨0.125 / Real.sqrt 2, 0, -(0.125 / Real.sqrt 2)⟩ := by
  unfold planarMoveVector
  norm_num [Vector3.add, Vector3.sub, Vector3.scale, Vector3.normalize,
    Vector3.lengthSq, PLAYER_SPEED]
  constructor <;> ring

theorem planarMoveVector_Ronly :
    planarMoveVector 0 ⟨false, false, false, true, false, false, false, false⟩ (1 / 60)
      = ⟨0.125, 0, 0⟩ := by
  unfold planarMoveVector
  norm_num [Vector3.add, Vector3.sub, Vector3.scale, Vector3.normalize,
    Vector3.lengthSq, PLAYER_SPEED]

theorem stepJump_fresh :
    (predictStep ⟨⟨0, 0, 0⟩, 0, 0, false⟩
        ⟨false, false, false, false, false, true, false, false⟩
        SERVER_TICK_DELTA).verticalVelocity = 9 := by
  norm_num [predictStep, calculateClientMovement, planarMoveVector,
    Vector3.add, Vector3.scale, Vector3.lengthSq, Vector3.normalize,
    PLAYER_SPEED, GRAVITY, JUMP_FORCE, SERVER_TICK_DELTA]

theorem stepJump_held :
    (predictStep ⟨⟨0, 0, 0⟩, 0, 0, true⟩
        ⟨false, false, false, false, false, true, false, false⟩
        SERVER_TICK_DELTA).verticalVelocity = 0 := by
  norm_num [predictStep, calculateClientMovement, planarMoveVector,
    Vector3.add, Vector3.scale, Vector3.lengthSq, Vector3.normalize,
    PLAYER_SPEED, GRAVITY, JUMP_FORCE, SERVER_TICK_DELTA]

/-! ## Claim theorems -/

/-- C1 counterexample: with flags {forward:true, right:true} the claimed
tie-break result "right" does not hold: the animation direction label is
"walk-forward" (the `forward && !backward` branch fires first), and the
planar move vector differs from the one produced by a pure right input
(it is a blended diagonal, not the strafe direction). -/
theorem C1_counterexample :
    determineLocalAnimation ⟨true, false, false, true, false, false, false, false⟩ true
        ≠ "walk-right" ∧
      planarMoveVector 0 ⟨true, false, false, true, false, false, false, false⟩ (1 / 60)
        ≠ planarMoveVector 0 ⟨false, false, false, true, false, false, false, false⟩ (1 / 60) := by
  constructor
  · decide
  · intro h
    have hz := congrArg Vector3.z h
    rw [planarMoveVector_FR, planarMoveVector_Ronly] at hz
    dsimp only at hz
    have hpos : (0 : ℝ) < 0.125 / Real.sqrt 2 := by positivity
    rw [neg_eq_zero] at hz
    linarith [hz ▸ hpos]

/-- C1 (amended): only the four single-flag combinations follow the
spec's table. Diagonals follow neither column: the direction label
resolves toward the forward/back component (forward+left→forward,
forward+right→forward, backward+left→back, backward+right→back), and the
planar move direction is the normalized (blended) vector sum of the two
active basis directions — for {forward:true, right:true} at yaw 0 the
move vector is (0.125/√2, 0, −0.125/√2), not the pure right direction
(0.125, 0, 0). -/
theorem C1_direction_table :
    determineDirection true false false false = "forward" ∧
      determineDirection false true false false = "back" ∧
      determineDirection false false true false = "left" ∧
      determineDirection false false false true = "right" ∧
      determineDirection true false true false = "forward" ∧
      determineDirection true false false true = "forward" ∧
      determineDirection false true true false = "back" ∧
      determineDirection false true false true = "back" ∧
      determineLocalAnimation ⟨true, false, false, true, false, false, false, false⟩ true
        = "walk-forward" ∧
      planarMoveVector 0 ⟨true, false, false, true, false, false, false, false⟩ (1 / 60)
        = ⟨0.125 / Real.sqrt 2, 0, -(0.125 / Real.sqrt 2)⟩ ∧
      planarMoveVector 0 ⟨false, false, false, true, false, false, false, false⟩ (1 / 60)
        = ⟨0.125, 0, 0⟩ := by
  refine ⟨by decide, by decide, by decide, by decide, by decide, by decide, by decide,
    by decide, by decide, planarMoveVector_FR, planarMoveVector_Ronly⟩

/-- C2 counterexample: at Euclidean distance exactly 1.0 the reconciler
does not snap — it lerps with factor 0.3, leaving the predicted position
different from the authoritative one. -/
theorem C2_counterexample :
    reconcilePosition ⟨0, 0, 0⟩ ⟨1, 0, 0⟩ ≠ ⟨1, 0, 0⟩ := by
  have hd : Vector3.distanceTo ⟨0, 0, 0⟩ ⟨1, 0, 0⟩ = 1 :=
    distanceTo_zero_x 1 (by norm_num)
  unfold reconcilePosition
  rw [hd]
  norm_num [POSITION_RECONCILE_THRESHOLD, Vector3.lerp]

/-- C2 (amended): reconciliation snaps (predicted replaced by
authoritative) only when the distance strictly exceeds 1.0; at distance
exactly 1.0 the aggressive tier applies with lerp factor 0.3 (giving
(0.3,0,0) from predicted (0,0,0) and authoritative (1,0,0)), and at
distance 0.999 the result is likewise not a snap. -/
theorem C2_snap_boundary :
    (∀ p s : Vector3, 1 < p.distanceTo s → reconcilePosition p s = s) ∧
      reconcilePosition ⟨0, 0, 0⟩ ⟨1, 0, 0⟩ = ⟨0.3, 0, 0⟩ ∧
      reconcilePosition ⟨0, 0, 0⟩ ⟨0.999, 0, 0⟩ ≠ ⟨0.999, 0, 0⟩ := by
  refine ⟨fun p s h => ?_, ?_, ?_⟩
  · unfold reconcilePosition
    rw [if_pos h]
  · have hd : Vector3.distanceTo ⟨0, 0, 0⟩ ⟨1, 0, 0⟩ = 1 :=
      distanceTo_zero_x 1 (by norm_num)
    unfold reconcilePosition
    rw [hd]
    norm_num [POSITION_RECONCILE_THRESHOLD, Vector3.lerp]
  · have hd : Vector3.distanceTo ⟨0, 0, 0⟩ ⟨0.999, 0, 0⟩ = 0.999 :=
      distanceTo_zero_x 0.999 (by norm_num)
    unfold reconcilePosition
    rw [hd]
    norm_num [POSITION_RECONCILE_THRESHOLD, Vector3.lerp]

/-- Witness for C2 (amended): at distance 2 the reconciler snaps. -/
theorem C2_snap_boundary_witness :
    reconcilePosition ⟨0, 0, 0⟩ ⟨2, 0, 0⟩ = ⟨2, 0, 0⟩ :=
  C2_snap_boundary.1 _ _ (by rw [distanceTo_zero_x 2 (by norm_num)]; norm_num)

/-- C4 counterexample: two predictor states that agree on position,
vertical velocity and yaw — the inputs the claim allows — but differ in
the stored previous-jump flag produce different outputs under the same
command and delta, so the step is not a function of exactly
(position, vertical velocity, yaw, command, delta). -/
theorem C4_counterexample :
    ((⟨⟨0, 0, 0⟩, 0, 0, false⟩ : PredictedState).position
        = (⟨⟨0, 0, 0⟩, 0, 0, true⟩ : PredictedState).position) ∧
      ((⟨⟨0, 0, 0⟩, 0, 0, false⟩ : PredictedState).verticalVelocity
        = (⟨⟨0, 0, 0⟩, 0, 0, true⟩ : PredictedState).verticalVelocity) ∧
      ((⟨⟨0, 0, 0⟩, 0, 0, false⟩ : PredictedState).yaw
        = (⟨⟨0, 0, 0⟩, 0, 0, true⟩ : PredictedState).yaw) ∧
      predictStep ⟨⟨0, 0, 0⟩, 0, 0, false⟩
          ⟨false, false, false, false, false, true, false, false⟩ SERVER_TICK_DELTA
        ≠ predictStep ⟨⟨0, 0, 0⟩, 0, 0, true⟩
          ⟨false, false, false, false, false, true, false, false⟩ SERVER_TICK_DELTA := by
  refine ⟨rfl, rfl, rfl, fun h => ?_⟩
  have hv := congrArg PredictedState.verticalVelocity h
  rw [stepJump_fresh, stepJump_held] at hv
  norm_num at hv

/-- C4 (amended): the predictor step is a pure function of the full
predicted state (position, yaw, vertical velocity, previous-tick jump
flag) together with the command and the delta: states equal in all four
fields produce identical outputs. The previous-jump flag is genuinely
part of that state. -/
theorem C4_step_determinism (s1 s2 : PredictedState) (inp : InputState) (delta : ℝ)
    (hpos : s1.position = s2.position)
    (hv : s1.verticalVelocity = s2.verticalVelocity)
    (hyaw : s1.yaw = s2.yaw) (hpj : s1.prevJump = s2.prevJump) :
    predictStep s1 inp delta = predictStep s2 inp delta := by
  have hs : s1 = s2 := by
    cases s1; cases s2; simp_all
  rw [hs]

/-- Witness for C4 (amended) at a concrete state and command. -/
theorem C4_step_determinism_witness :
    predictStep ⟨⟨1, 0, 2⟩, 0.5, 3, true⟩
        ⟨true, false, false, false, true, false, false, false⟩ SERVER_TICK_DELTA
      = predictStep ⟨⟨1, 0, 2⟩, 0.5, 3, true⟩
        ⟨true, false, false, false, true, false, false, false⟩ SERVER_TICK_DELTA :=
  C4_step_determinism _ _ _ _ rfl rfl rfl rfl

/-- C3: for every predicted and authoritative position with Euclidean
distance d, if 0.2 < d ≤ 1.0 the reconciler lerps the predicted position
toward the authoritative position with factor exactly
min(0.3, 0.15 + d*0.3); if d ≤ 0.2 it lerps with fixed factor 0.05; and
at d = 0 the predicted position is unchanged. -/
theorem C3_reconcile_tiers (p s : Vector3) :
    (POSITION_RECONCILE_THRESHOLD < p.distanceTo s → p.distanceTo s ≤ 1 →
      reconcilePosition p s = p.lerp s (min 0.3 (0.15 + p.distanceTo s * 0.3))) ∧
    (p.distanceTo s ≤ POSITION_RECONCILE_THRESHOLD →
      reconcilePosition p s = p.lerp s 0.05) ∧
    (p.distanceTo s = 0 → reconcilePosition p s = p) := by
  refine ⟨fun h1 h2 => ?_, fun h => ?_, fun h => ?_⟩
  · unfold reconcilePosition
    rw [if_neg (not_lt.mpr h2), if_pos h1]
  · unfold reconcilePosition
    have hle : p.distanceTo s ≤ 1 :=
      le_trans h (by norm_num [POSITION_RECONCILE_THRESHOLD])
    rw [if_neg (not_lt.mpr hle), if_neg (not_lt.mpr h)]
  · have hps : p = s := distanceTo_eq_zero h
    unfold reconcilePosition
    rw [if_neg (not_lt.mpr (by rw [h]; norm_num)),
      if_neg (not_lt.mpr (by rw [h]; norm_num [POSITION_RECONCILE_THRESHOLD]))]
    rw [hps, lerp_self]

/-- Witness for C3 at the concrete distances 0.5 (aggressive tier),
0.1 (gentle tier) and 0 (unchanged). -/
theorem C3_reconcile_tiers_witness :
    reconcilePosition ⟨0, 0, 0⟩ ⟨0.5, 0, 0⟩
      = Vector3.lerp ⟨0, 0, 0⟩ ⟨0.5, 0, 0⟩
          (min 0.3 (0.15 + Vector3.distanceTo ⟨0, 0, 0⟩ ⟨0.5, 0, 0⟩ * 0.3)) ∧
    reconcilePosition ⟨0, 0, 0⟩ ⟨0.1, 0, 0⟩
      = Vector3.lerp ⟨0, 0, 0⟩ ⟨0.1, 0, 0⟩ 0.05 ∧
    reconcilePosition ⟨0, 0, 0⟩ ⟨0, 0, 0⟩ = ⟨0, 0, 0⟩ := by
  refine ⟨(C3_reconcile_tiers _ _).1 ?_ ?_, (C3_reconcile_tiers _ _).2.1 ?_,
    (C3_reconcile_tiers _ _).2.2 ?_⟩
  · rw [distanceTo_zero_x _ (by norm_num)]; norm_num [POSITION_RECONCILE_THRESHOLD]
  · rw [distanceTo_zero_x _ (by norm_num)]; norm_num
  · rw [distanceTo_zero_x _ (by norm_num)]; norm_num [POSITION_RECONCILE_THRESHOLD]
  · rw [distanceTo_zero_x _ (by norm_num)]

/-- C7: starting grounded with the previous-tick jump flag false, holding
the jump flag for 3 consecutive prediction ticks applies the upward
impulse (vertical velocity set to the jump force) exactly once, on the
first tick, and not on ticks 2 and 3. -/
theorem C7_jump_edge_trigger (st : PredictedState) (inp : InputState)
    (hp : st.prevJump = false) (hy0 : 0 ≤ st.position.y)
    (hy : st.position.y ≤ 0.01) (hj : inp.jump = true) :
    jumpImpulseApplied st inp ∧
      (predictStep st inp SERVER_TICK_DELTA).verticalVelocity = JUMP_FORCE ∧
      ¬jumpImpulseApplied (predictStep st inp SERVER_TICK_DELTA) inp ∧
      ¬jumpImpulseApplied
        (predictStep (predictStep st inp SERVER_TICK_DELTA) inp SERVER_TICK_DELTA) inp := by
  refine ⟨⟨by simp [hj], hj, hp, hy⟩, ?_, ?_, ?_⟩
  · unfold predictStep calculateClientMovement
    rw [if_neg (by simp [hj])]
    dsimp only
    have himp : inp.jump = true ∧ st.prevJump = false ∧ st.position.y ≤ 0.01 :=
      ⟨hj, hp, hy⟩
    rw [if_pos himp]
    have hng : ¬((st.position.add (planarMoveVector st.yaw inp SERVER_TICK_DELTA)).y +
        JUMP_FORCE * SERVER_TICK_DELTA < 0) := by
      have hpy : (st.position.add (planarMoveVector st.yaw inp SERVER_TICK_DELTA)).y
          = st.position.y := by
        simp [Vector3.add, planarMoveVector_y]
      rw [hpy]
      simp only [JUMP_FORCE, SERVER_TICK_DELTA, not_lt]
      nlinarith
    rw [if_neg hng]
  · intro h
    have h' := h.2.2.1
    rw [predictStep_prevJump st inp SERVER_TICK_DELTA hj] at h'
    exact Bool.noConfusion h'
  · intro h
    have h' := h.2.2.1
    rw [predictStep_prevJump _ inp SERVER_TICK_DELTA hj] at h'
    exact Bool.noConfusion h'

/-- Witness for C7: player at the origin, at rest, previous jump flag
clear, holding only the jump key. -/
theorem C7_jump_edge_trigger_witness :
    jumpImpulseApplied ⟨⟨0, 0, 0⟩, 0, 0, false⟩
        ⟨false, false, false, false, false, true, false, false⟩ ∧
      (predictStep ⟨⟨0, 0, 0⟩, 0, 0, false⟩
          ⟨false, false, false, false, false, true, false, false⟩
          SERVER_TICK_DELTA).verticalVelocity = JUMP_FORCE ∧
      ¬jumpImpulseApplied
        (predictStep ⟨⟨0, 0, 0⟩, 0, 0, false⟩
          ⟨false, false, false, false, false, true, false, false⟩ SERVER_TICK_DELTA)
        ⟨false, false, false, false, false, true, false, false⟩ ∧
      ¬jumpImpulseApplied
        (predictStep
          (predictStep ⟨⟨0, 0, 0⟩, 0, 0, false⟩
            ⟨false, false, false, false, false, true, false, false⟩ SERVER_TICK_DELTA)
          ⟨false, false, false, false, false, true, false, false⟩ SERVER_TICK_DELTA)
        ⟨false, false, false, false, false, true, false, false⟩ :=
  C7_jump_edge_trigger _ _ rfl (by norm_num) (by norm_num) rfl

/-- C9: processing an authoritative snapshot for the local entity
modifies only the predicted position; the predicted state's vertical
velocity, yaw and stored previous-jump flag are unchanged, and the
snapshot's yaw is never consumed. -/
theorem C9_reconcile_frame (st : PredictedState) (server : ServerPlayerState) :
    (reconcileLocalState st server).verticalVelocity = st.verticalVelocity ∧
      (reconcileLocalState st server).yaw = st.yaw ∧
      (reconcileLocalState st server).prevJump = st.prevJump :=
  ⟨rfl, rfl, rfl⟩

/-- C10: a prediction step with all movement flags false, the jump flag
false, and position.y ≤ 0 returns the state completely unchanged: the
position is returned as is, gravity is not integrated into the vertical
velocity, and the stored previous-jump flag keeps its prior value. -/
theorem C10_early_return (st : PredictedState) (inp : InputState) (delta : ℝ)
    (hf : inp.forward = false) (hb : inp.backward = false)
    (hl : inp.left = false) (hr : inp.right = false)
    (hj : inp.jump = false) (hy : st.position.y ≤ 0) :
    predictStep st inp delta = st := by
  unfold predictStep calculateClientMovement
  have hcond : (inp.forward || inp.backward || inp.left || inp.right) = false ∧
      inp.jump = false ∧ st.position.y ≤ 0 := by
    simp [hf, hb, hl, hr, hj, hy]
  rw [if_pos hcond]

/-- C5: remote interpolation renders at renderTime = now − 100 ms; with
the buffered snapshots ((0,0,0), t=1000) and ((10,0,0), t=1100) and
now = 1150 (renderTime 1050) the interpolated position is (5,0,0); in
general, for a timestamp-sorted buffer the scan selects the bracketing
pair with snap[i].timestamp ≤ renderTime < snap[i+1].timestamp and lerps
with the factor clamped to [0,1]; when renderTime is at or past the
newest snapshot the newest position is used; a single buffered entry is
used directly. -/
theorem C5_remote_interpolation :
    remoteRenderPosition [⟨⟨0, 0, 0⟩, 1000⟩, ⟨⟨10, 0, 0⟩, 1100⟩] 1150 ⟨0, 0, 0⟩
        = ⟨5, 0, 0⟩ ∧
      (∀ (pre : List RemoteSnap) (s0 s1 : RemoteSnap) (post : List RemoteSnap) (rt : ℚ),
        (pre ++ s0 :: s1 :: post).Sorted tsLT → s0.timestamp ≤ rt → rt < s1.timestamp →
        interpolateBuffer (pre ++ s0 :: s1 :: post) rt
          = some (lerpQ s0.pos s1.pos
              (clamp01 ((rt - s0.timestamp) / (s1.timestamp - s0.timestamp))))) ∧
      (∀ (l : List RemoteSnap) (s : RemoteSnap) (rt : ℚ),
        (l ++ [s]).Sorted tsLT → s.timestamp ≤ rt →
        interpolateBuffer (l ++ [s]) rt = some s.pos) ∧
      (∀ (s : RemoteSnap) (rt : ℚ), interpolateBuffer [s] rt = some s.pos) := by
  refine ⟨?_, interp_bracket, interp_past_last, fun s rt => rfl⟩
  simp [remoteRenderPosition, interpolateBuffer, lerpQ, clamp01]
  norm_num

/-- Witness for C5: the bracketing, past-newest and single-entry cases at
concrete buffers. -/
theorem C5_remote_interpolation_witness :
    interpolateBuffer [⟨⟨0, 0, 0⟩, 10⟩, ⟨⟨2, 0, 0⟩, 20⟩] 15
        = some (lerpQ ⟨0, 0, 0⟩ ⟨2, 0, 0⟩ (clamp01 ((15 - 10) / (20 - 10)))) ∧
      interpolateBuffer [⟨⟨0, 0, 0⟩, 10⟩, ⟨⟨2, 0, 0⟩, 20⟩] 30 = some ⟨2, 0, 0⟩ ∧
      interpolateBuffer [⟨⟨7, 0, 0⟩, 5⟩] 0 = some ⟨7, 0, 0⟩ := by
  refine ⟨C5_remote_interpolation.2.1 [] ⟨⟨0, 0, 0⟩, 10⟩ ⟨⟨2, 0, 0⟩, 20⟩ [] 15 ?_
      (by norm_num) (by norm_num),
    C5_remote_interpolation.2.2.1 [⟨⟨0, 0, 0⟩, 10⟩] ⟨⟨2, 0, 0⟩, 20⟩ 30 ?_ (by norm_num),
    C5_remote_interpolation.2.2.2 ⟨⟨7, 0, 0⟩, 5⟩ 0⟩
  · simp [List.sorted_cons, tsLT]
    norm_num
  · simp [List.sorted_cons, tsLT]
    norm_num

/-- C6: a remote entity's snapshot buffer never exceeds 10 entries, and
after 15 accepted arrivals (each differing from the buffer's last entry
by more than the negligible threshold) it holds exactly the 10 most
recent arrivals, in arrival order. -/
theorem C6_buffer_bound :
    (∀ (buf : List RemoteSnap) (p : Vec3Q) (t : ℚ),
        buf.length ≤ 10 → (pushRemoteSnapshot buf p t).length ≤ 10) ∧
      (∀ l : List RemoteSnap, l.Chain' arrivalGap → l.length = 15 →
        runArrivals l = l.drop 5) := by
  refine ⟨pushRemoteSnapshot_length, fun l hc h15 => ?_⟩
  rw [runArrivals_chain l hc, h15]

/-- Witness for C6: 15 arrivals one unit apart leave the buffer holding
exactly the last 10. -/
theorem C6_buffer_bound_witness :
    (pushRemoteSnapshot [] ⟨0, 0, 0⟩ 0).length ≤ 10 ∧
      runArrivals
          [⟨⟨0, 0, 0⟩, 0⟩, ⟨⟨1, 0, 0⟩, 1⟩, ⟨⟨2, 0, 0⟩, 2⟩, ⟨⟨3, 0, 0⟩, 3⟩,
            ⟨⟨4, 0, 0⟩, 4⟩, ⟨⟨5, 0, 0⟩, 5⟩, ⟨⟨6, 0, 0⟩, 6⟩, ⟨⟨7, 0, 0⟩, 7⟩,
            ⟨⟨8, 0, 0⟩, 8⟩, ⟨⟨9, 0, 0⟩, 9⟩, ⟨⟨10, 0, 0⟩, 10⟩, ⟨⟨11, 0, 0⟩, 11⟩,
            ⟨⟨12, 0, 0⟩, 12⟩, ⟨⟨13, 0, 0⟩, 13⟩, ⟨⟨14, 0, 0⟩, 14⟩]
        = ([⟨⟨0, 0, 0⟩, 0⟩, ⟨⟨1, 0, 0⟩, 1⟩, ⟨⟨2, 0, 0⟩, 2⟩, ⟨⟨3, 0, 0⟩, 3⟩,
            ⟨⟨4, 0, 0⟩, 4⟩, ⟨⟨5, 0, 0⟩, 5⟩, ⟨⟨6, 0, 0⟩, 6⟩, ⟨⟨7, 0, 0⟩, 7⟩,
            ⟨⟨8, 0, 0⟩, 8⟩, ⟨⟨9, 0, 0⟩, 9⟩, ⟨⟨10, 0, 0⟩, 10⟩, ⟨⟨11, 0, 0⟩, 11⟩,
            ⟨⟨12, 0, 0⟩, 12⟩, ⟨⟨13, 0, 0⟩, 13⟩, ⟨⟨14, 0, 0⟩, 14⟩] : List RemoteSnap).drop 5 := by
  refine ⟨C6_buffer_bound.1 [] ⟨0, 0, 0⟩ 0 (by simp),
    C6_buffer_bound.2 _ ?_ (by simp)⟩
  simp [List.chain'_cons, arrivalGap, distSqQ]
  norm_num

/-- C8 counterexample: after 102 sent commands (sequences 1..102) whose
acknowledgments are all lost, the pending table holds 102 entries and
still contains the entry for sequence 1, which is 101 > 100 sequences
older than the newest sent sequence — entries older than 100 sequences
are not evicted and the table is not bounded to 100 sequences. -/
theorem C8_counterexample :
    (sendOnlyTrace 102).length = 102 ∧
      msLookup (sendOnlyTrace 102) 1 = some 1 ∧ 100 < 102 - 1 :=
  ⟨sendOnlyTrace_length 102, sendOnlyTrace_lookup_one 102 (by norm_num), by norm_num⟩

/-- C8 (amended): every sent command's timestamp is recorded; an
acknowledgment that finds a pending entry removes it (once removed it
stays absent), and only then, if more than 100 entries remain, the single
entry at (acknowledged sequence − 100) is also removed; no other entry is
ever evicted, so under packet loss the table grows without bound and
retains entries arbitrarily older than 100 sequences. -/
theorem C8_pending_table :
    (∀ (m : TsMap) (seq : ℕ) (now : ℚ),
        msLookup (sendRecord m seq now) seq = some now) ∧
      (∀ (m : TsMap) (seq k : ℕ), k ≠ seq → k ≠ seq - 100 →
        msLookup (ackProcess m seq) k = msLookup m k) ∧
      (∀ (m : TsMap) (seq : ℕ) (ts : ℚ), seq ≠ 0 → (m.map Prod.fst).Nodup →
        msLookup m seq = some ts → msLookup (ackProcess m seq) seq = none) ∧
      (∀ n : ℕ, (sendOnlyTrace n).length = n) := by
  refine ⟨fun m seq now => msLookup_msSet_self m seq now,
    fun m seq k hk1 hk2 => ?_, fun m seq ts hs0 hnd hl => ?_, sendOnlyTrace_length⟩
  · unfold ackProcess
    by_cases hz : seq = 0
    · rw [if_pos hz]
    · rw [if_neg hz]
      cases hl : msLookup m seq with
      | none => rfl
      | some ts =>
        dsimp only
        split
        · rw [msLookup_msDelete_ne _ _ _ hk2, msLookup_msDelete_ne _ _ _ hk1]
        · rw [msLookup_msDelete_ne _ _ _ hk1]
  · unfold ackProcess
    rw [if_neg hs0, hl]
    dsimp only
    have hdel : msLookup (msDelete m seq) seq = none := msLookup_msDelete_self m seq hnd
    split
    · rw [msLookup_msDelete_ne _ _ _ (by omega)]
      exact hdel
    · exact hdel

/-- Witness for C8 (amended): a send is recorded, an unrelated key
survives an acknowledgment, an acknowledged key is removed, and a
send-only trace has one entry per send. -/
theorem C8_pending_table_witness :
    msLookup (sendRecord [] 5 3) 5 = some 3 ∧
      msLookup (ackProcess [(1, 5), (2, 6)] 2) 1 = msLookup [(1, 5), (2, 6)] 1 ∧
      msLookup (ackProcess [(3, 7)] 3) 3 = none ∧
      (sendOnlyTrace 3).length = 3 :=
  ⟨C8_pending_table.1 [] 5 3,
    C8_pending_table.2.1 [(1, 5), (2, 6)] 2 1 (by norm_num) (by norm_num),
    C8_pending_table.2.2.1 [(3, 7)] 3 7 (by norm_num) (by simp) rfl,
    C8_pending_table.2.2.2 3⟩

/-- Witness for C10: grounded state whose stored previous-jump flag is
still true; an idle tick (all flags false, jump released) leaves the
state, including that flag, untouched, so the release is unobserved. -/
theorem C10_early_return_witness :
    predictStep ⟨⟨0, 0, 0⟩, 0, 0, true⟩
        ⟨false, false, false, false, false, false, false, false⟩ SERVER_TICK_DELTA
      = ⟨⟨0, 0, 0⟩, 0, 0, true⟩ :=
  C10_early_return _ _ _ rfl rfl rfl rfl rfl (by norm_num)

end VibeWizard
